import Mathlib

/-!
# Verification of the VBS video retrieval system

A shallow embedding of the repository's core logic:

* `scripts/import_data.py` — the report ingestion pipeline (`import_single_video`):
  transactional upsert of a video row, delete of the video's existing moments,
  insert of the report's keyframes, with commit/rollback semantics.
* `query_server/app.py` and `query_server/appV.py` — the search endpoints
  (text, keyword, object, temporal, video-segment queries) over a joined
  snapshot of the `videos` and `video_moments` tables.
* `database/simple_init.py` — the schema the two tables satisfy (primary keys
  on `video_id` / `moment_id`, foreign key from moments to videos); the
  primary/foreign-key checks appear here as the failure conditions of inserts.

Timestamps, durations and tolerances are modelled as rationals (the Python
floats carry no float-specific behaviour in any claim considered here).
Wall-clock columns (`created_at`, `updated_at`) are not modelled: no claim
reads them.  A JSON `null` stored under a key is identified with the key being
absent (both are modelled as `Option.none`).
-/

unseal Rat.add Rat.sub Rat.mul Rat.inv

deriving instance DecidableEq for Except

namespace VBS

/-! ## Case-insensitive substring matching: SQL `ILIKE '%pat%'`

All `ILIKE` uses in the two servers interpolate the user string between two
`%` wildcards, so for wildcard-free user input the semantics is
case-insensitive substring containment over the stored text (which, for the
list-valued columns, is the JSON serialization produced by the importer). -/

/-- The characters of `s`, lowercased (models Python `str.lower` /
PostgreSQL case folding on ASCII input). -/
def lowerChars (s : String) : List Char := s.data.map Char.toLower

/-- Lowercase a string (Python `keyword.lower()` in `search_by_keywords`). -/
def strLower (s : String) : String := ⟨lowerChars s⟩

/-- `charsStart n h`: `n` occurs at the head of `h`. -/
def charsStart : List Char → List Char → Bool
  | [], _ => true
  | _ :: _, [] => false
  | a :: as, b :: bs => a == b && charsStart as bs

/-- `charsSub n h`: `n` occurs contiguously somewhere in `h`. -/
def charsSub (needle : List Char) : List Char → Bool
  | [] => charsStart needle []
  | b :: bs => charsStart needle (b :: bs) || charsSub needle bs

/-- `ilike hay pat` models `hay ILIKE '%' || pat || '%'` for wildcard-free
`pat`: case-insensitive substring containment. -/
def ilike (hay pat : String) : Bool := charsSub (lowerChars pat) (lowerChars hay)

/-! ## JSON serialization used by the importer

`import_data.py` stores the list-valued fields as `json.dumps(...)` text.
Python's default separator between array items is `", "` and strings are
double-quoted with backslash escapes for `"` and `\`. -/

/-- Backslash-escape `"` and `\` (the `json.dumps` escapes relevant to the
printable-ASCII content this system stores). -/
def jEscape (s : String) : String :=
  ⟨s.data.foldr
    (fun c acc =>
      if c = '"' then '\\' :: '"' :: acc
      else if c = '\\' then '\\' :: '\\' :: acc
      else c :: acc) []⟩

/-- A JSON string literal. -/
def jStr (s : String) : String := "\"" ++ jEscape s ++ "\""

/-- `json.dumps` of a list of strings. -/
def jStrList (l : List String) : String :=
  "[" ++ String.intercalate ", " (l.map jStr) ++ "]"

/-- `json.dumps` of a list of integers. -/
def jIntList (l : List Int) : String :=
  "[" ++ String.intercalate ", " (l.map toString) ++ "]"

/-! ## Data model: the two tables of `database/simple_init.py` -/

/-- A row of the `videos` table. -/
structure VideoRow where
  video_id : String
  original_filename : String
  compressed_filename : Option String
  duration_seconds : ℚ
  fps : ℚ
  compressed_file_size_bytes : Int
  /-- The parsed-or-null processing date, kept as its source text: the
  `fromisoformat` parse in the importer is non-fatal (failure stores NULL)
  and no query reads the column, so the parse itself is abstracted. -/
  processing_date_utc : Option String
  /-- JSON text of the scene-change timestamp list (TEXT column). -/
  scene_change_timestamps : String
  keyframes_analyzed_count : Int
  analysis_status : String
  error_message : Option String
  deriving DecidableEq, Repr

/-- A row of the `video_moments` table.  The list-valued columns are TEXT
holding JSON, exactly as the importer writes them and as `ILIKE` reads them. -/
structure MomentRow where
  moment_id : String
  video_id : String
  frame_identifier : String
  timestamp_seconds : ℚ
  keyframe_image_path : Option String
  clip_embedding : Option String
  detected_object_names : String
  extracted_search_words : String
  average_color_rgb : String
  detailed_features : String
  deriving DecidableEq, Repr

/-- The store: the two tables.  Row order within a table is the insertion
order; SQL result order is fixed by the explicit `ORDER BY` of each query. -/
structure DBState where
  videos : List VideoRow
  moments : List MomentRow
  deriving DecidableEq, Repr

/-- The moments currently stored under a given video identifier. -/
def momentsFor (vid : String) (st : DBState) : List MomentRow :=
  st.moments.filter (fun m => m.video_id == vid)

/-- The video row stored under a given identifier, if any. -/
def videoLookup (vid : String) (st : DBState) : Option VideoRow :=
  st.videos.find? (fun v => v.video_id == vid)

/-! ## The decoded analysis report (`video_analysis_report.json`) -/

/-- One entry of the report's `analyzed_keyframes` list.  `clip_embedding`
and `detailed_features` carry their JSON text verbatim: the importer only
re-serializes them and no claim inspects their structure. -/
structure KeyframeData where
  moment_id : Option String
  frame_identifier : Option String
  timestamp_seconds : Option ℚ
  keyframe_image_path : Option String
  clip_embedding : Option String
  detected_object_names : Option (List String)
  extracted_search_words : Option (List String)
  average_color_rgb : Option (List Int)
  detailed_features : Option String
  deriving DecidableEq, Repr

/-- A decoded per-video analysis report. -/
structure Report where
  video_id : Option String
  original_filename : Option String
  compressed_filename : Option String
  duration_seconds : Option ℚ
  fps : Option ℚ
  compressed_file_size_bytes : Option Int
  processing_date_utc : Option String
  scene_change_timestamps : Option String
  keyframes_analyzed_count : Option Int
  analysis_status : Option String
  error_message : Option String
  analyzed_keyframes : Option (List KeyframeData)
  deriving DecidableEq, Repr

/-! ## Ingestion pipeline (`import_data.py`, `import_single_video`)

The function opens one transaction and performs: video upsert, delete of the
moments keyed by the *folder name* (`video_folder.name`), insert of each
keyframe, then commit; any exception triggers `conn.rollback()`.  The
transaction is embedded as an `Except`-valued state transformer whose error
branch leaves the pre-transaction state visible. -/

/-- Zero-padded decimal, Python `f'...:012d'`. -/
def padNum (w : Nat) (n : Nat) : String :=
  let s := toString n
  ⟨List.replicate (w - s.length) '0'⟩ ++ s

/-- The video row built from a report (the `cursor.execute(video_sql, ...)`
argument tuple, defaults included). -/
def videoRowOf (folderId : String) (r : Report) : VideoRow where
  video_id := r.video_id.getD folderId
  original_filename := r.original_filename.getD (folderId ++ ".mp4")
  compressed_filename := some (r.compressed_filename.getD "compressed_for_web.mp4")
  duration_seconds := r.duration_seconds.getD 0
  fps := r.fps.getD 25
  compressed_file_size_bytes := r.compressed_file_size_bytes.getD 0
  processing_date_utc := match r.processing_date_utc with
    | some s => if s = "" then none else some s
    | none => none
  scene_change_timestamps := r.scene_change_timestamps.getD "[]"
  keyframes_analyzed_count := r.keyframes_analyzed_count.getD 0
  analysis_status := r.analysis_status.getD "completed"
  error_message := r.error_message

/-- The moment row built from the keyframe at position `idx` of the report's
list (`idx` is the `moments_imported` counter).  Note `video_id := folderId`:
the moment is keyed by the dataset folder name, not by any identifier inside
the report. -/
def momentRowOf (folderId : String) (idx : Nat) (k : KeyframeData) : MomentRow where
  moment_id := k.moment_id.getD (folderId ++ "_frame_" ++ toString idx)
  video_id := folderId
  frame_identifier := k.frame_identifier.getD ("frame_" ++ padNum 12 idx)
  timestamp_seconds := k.timestamp_seconds.getD 0
  keyframe_image_path := k.keyframe_image_path
  clip_embedding := match k.clip_embedding with
    | some s => if s = "[]" then none else some s
    | none => none
  detected_object_names := jStrList (k.detected_object_names.getD [])
  extracted_search_words := jStrList (k.extracted_search_words.getD [])
  average_color_rgb := jIntList (k.average_color_rgb.getD [0, 0, 0])
  detailed_features := k.detailed_features.getD "\x7b\x7d"

/-- All moment rows of a report, in list order. -/
def momentRowsOf (folderId : String) (r : Report) : List MomentRow :=
  (r.analyzed_keyframes.getD []).enum.map (fun p => momentRowOf folderId p.1 p.2)

/-- `INSERT ... ON CONFLICT (video_id) DO UPDATE`: replace the row with the
same key, or append a new row. -/
def upsertVideo (v : VideoRow) (vs : List VideoRow) : List VideoRow :=
  if vs.any (fun w => w.video_id == v.video_id) then
    vs.map (fun w => if w.video_id = v.video_id then v else w)
  else vs ++ [v]

/-- `DELETE FROM video_moments WHERE video_id = folderId`. -/
def deleteMoments (folderId : String) (st : DBState) : DBState :=
  { st with moments := st.moments.filter (fun m => !(m.video_id == folderId)) }

/-- `INSERT INTO video_moments ...`: fails on a primary-key conflict
(`moment_id` already present) or a foreign-key violation (`video_id` not in
`videos`), per the `simple_init.py` schema. -/
def insertMoment (m : MomentRow) (st : DBState) : Except String DBState :=
  if st.moments.any (fun x => x.moment_id == m.moment_id) then
    .error ("duplicate key value violates unique constraint: " ++ m.moment_id)
  else if st.videos.any (fun v => v.video_id == m.video_id) then
    .ok { st with moments := st.moments ++ [m] }
  else
    .error ("insert or update violates foreign key constraint: " ++ m.video_id)

/-- Insert the rows in order; the first failure aborts. -/
def insertMoments (ms : List MomentRow) (st : DBState) : Except String DBState :=
  match ms with
  | [] => .ok st
  | m :: rest =>
    match insertMoment m st with
    | .ok st' => insertMoments rest st'
    | .error e => .error e

/-- Steps 1–3 of the transaction body of `import_single_video`: video upsert,
delete of the folder's moments, insert of the report's keyframes.  The result
is the state to be committed, or the error that triggers rollback. -/
def runIngest (folderId : String) (r : Report) (st : DBState) : Except String DBState :=
  let st1 : DBState := { st with videos := upsertVideo (videoRowOf folderId r) st.videos }
  let st2 := deleteMoments folderId st1
  insertMoments (momentRowsOf folderId r) st2

/-- `import_single_video`: commit the transaction's result, or roll back —
the visible state after a failed attempt is the original state. -/
def import_single_video (folderId : String) (r : Report) (st : DBState) : DBState :=
  match runIngest folderId r st with
  | .ok st' => st'
  | .error _ => st

/-! ## Query engine (`query_server/app.py`, `query_server/appV.py`)

Every search endpoint selects from `video_moments m JOIN videos v ON
m.video_id = v.video_id`; a result row is modelled as the joined pair.
Endpoints return `Except ApiError _`: the `.error` branch is the HTTP 400
input-validation response, taken before the store is touched. -/

/-- The HTTP 400 response produced by an endpoint's input validation. -/
inductive ApiError where
  | badRequest (msg : String)
  deriving DecidableEq, Repr

/-- The inner join of the two tables, in moment-table order. -/
def joinRows (st : DBState) : List (MomentRow × VideoRow) :=
  st.moments.filterMap
    (fun m => (st.videos.find? (fun v => v.video_id == m.video_id)).map (fun v => (m, v)))

/-- Computable lexicographic comparison of character lists (PostgreSQL
byte-order/`C`-collation comparison of the stored identifiers). -/
def charsLt : List Char → List Char → Bool
  | [], [] => false
  | [], _ :: _ => true
  | _ :: _, [] => false
  | a :: as, b :: bs => decide (a < b) || (a == b && charsLt as bs)

/-- String comparison used by `ORDER BY` on `video_id`. -/
def strLtB (a b : String) : Bool := charsLt a.data b.data

/-- The `ORDER BY m.video_id, m.timestamp_seconds` sort relation shared by the
text, keyword, object and temporal endpoints. -/
def vtLe (a b : MomentRow × VideoRow) : Prop :=
  strLtB a.1.video_id b.1.video_id = true
    ∨ (a.1.video_id = b.1.video_id ∧ a.1.timestamp_seconds ≤ b.1.timestamp_seconds)

instance : DecidableRel vtLe := fun a b => by
  unfold vtLe; exact instDecidableOr

instance : IsTotal (MomentRow × VideoRow) vtLe := by
  constructor
  have hcon : ∀ x y : List Char, charsLt x y = false → charsLt y x = false → x = y := by
    intro x
    induction x with
    | nil => intro y hxy _; cases y with
      | nil => rfl
      | cons b bs => simp [charsLt] at hxy
    | cons a as ih =>
      intro y hxy hyx
      cases y with
      | nil => simp [charsLt] at hyx
      | cons b bs =>
        simp only [charsLt, Bool.or_eq_false_iff, Bool.and_eq_false_iff,
          decide_eq_false_iff_not, not_lt, beq_eq_false_iff_ne, ne_eq] at hxy hyx
        have hab : a = b := le_antisymm hyx.1 hxy.1
        subst hab
        rcases hxy.2 with h | h
        · exact absurd rfl h
        · rcases hyx.2 with h' | h'
          · exact absurd rfl h'
          · rw [ih bs h h']
  intro a b
  by_cases h1 : strLtB a.1.video_id b.1.video_id = true
  · exact Or.inl (Or.inl h1)
  · by_cases h2 : strLtB b.1.video_id a.1.video_id = true
    · exact Or.inr (Or.inl h2)
    · have heq : a.1.video_id = b.1.video_id := by
        have := hcon a.1.video_id.data b.1.video_id.data
          (Bool.eq_false_iff.mpr h1) (Bool.eq_false_iff.mpr h2)
        cases ha : a.1.video_id with
        | mk da => cases hb : b.1.video_id with
          | mk db =>
            rw [ha, hb] at this
            exact congrArg String.mk this
      rcases le_total a.1.timestamp_seconds b.1.timestamp_seconds with ht | ht
      · exact Or.inl (Or.inr ⟨heq, ht⟩)
      · exact Or.inr (Or.inr ⟨heq.symm, ht⟩)

instance : IsTrans (MomentRow × VideoRow) vtLe := by
  constructor
  have htr : ∀ x y z : List Char,
      charsLt x y = true → charsLt y z = true → charsLt x z = true := by
    intro x
    induction x with
    | nil =>
      intro y z hxy hyz
      cases y with
      | nil => simp [charsLt] at hxy
      | cons b bs =>
        cases z with
        | nil => simp [charsLt] at hyz
        | cons c cs => simp [charsLt]
    | cons a as ih =>
      intro y z hxy hyz
      cases y with
      | nil => simp [charsLt] at hxy
      | cons b bs =>
        cases z with
        | nil => simp [charsLt] at hyz
        | cons c cs =>
          simp only [charsLt, Bool.or_eq_true, Bool.and_eq_true, decide_eq_true_eq,
            beq_iff_eq] at hxy hyz ⊢
          rcases hxy with h1 | ⟨h1, h1'⟩
          · rcases hyz with h2 | ⟨h2, _⟩
            · exact Or.inl (lt_trans h1 h2)
            · exact Or.inl (h2 ▸ h1)
          · rcases hyz with h2 | ⟨h2, h2'⟩
            · exact Or.inl (h1 ▸ h2)
            · exact Or.inr ⟨h1.trans h2, ih bs cs h1' h2'⟩
  intro a b c hab hbc
  rcases hab with h1 | ⟨h1, t1⟩
  · rcases hbc with h2 | ⟨h2, _⟩
    · exact Or.inl (htr _ _ _ h1 h2)
    · exact Or.inl (h2 ▸ h1)
  · rcases hbc with h2 | ⟨h2, t2⟩
    · exact Or.inl (h1 ▸ h2)
    · exact Or.inr ⟨h1.trans h2, t1.trans t2⟩

/-- `ORDER BY m.video_id, m.timestamp_seconds`. -/
def orderByVidTs (l : List (MomentRow × VideoRow)) : List (MomentRow × VideoRow) :=
  List.insertionSort vtLe l

/-! ### Request bodies

A request field that may be absent from the JSON body is an `Option`; the
handlers apply the same defaults as the Python `data.get(...)` calls. -/

/-- Body of `POST /api/search/text`. -/
structure TextRequest where
  query : Option String
  limit : Option Nat
  deriving DecidableEq, Repr

/-- Body of `POST /api/search/keywords`. -/
structure KeywordRequest where
  keywords : Option (List String)
  limit : Option Nat
  match_all : Option Bool
  deriving DecidableEq, Repr

/-- Body of `POST /api/search/objects`. -/
structure ObjectRequest where
  objects : Option (List String)
  limit : Option Nat
  match_all : Option Bool
  deriving DecidableEq, Repr

/-- Body of `POST /api/search/temporal`. -/
structure TemporalRequest where
  video_id : Option String
  start_time : Option ℚ
  end_time : Option ℚ
  limit : Option Nat
  deriving DecidableEq, Repr

/-- Body of `POST /api/search/video_segment`.  `limit` may be supplied by the
caller but the handler never reads it. -/
structure SegmentRequest where
  video_id : Option String
  timestamp : Option ℚ
  tolerance : Option ℚ
  limit : Option Nat
  deriving DecidableEq, Repr

/-- The WHERE clause of `app.py`'s text search: search words or parent video
filename (`detected_object_names` is *not* searched there). -/
def textPredApp (q : String) (p : MomentRow × VideoRow) : Bool :=
  ilike p.1.extracted_search_words q || ilike p.2.original_filename q

/-- The WHERE clause of `appV.py`'s text search: search words, object names,
or parent video filename. -/
def textPredAppV (q : String) (p : MomentRow × VideoRow) : Bool :=
  ilike p.1.extracted_search_words q
    || ilike p.1.detected_object_names q
    || ilike p.2.original_filename q

/-- Keyword WHERE clause: every/any term, lowercased, `ILIKE` against the
stored `extracted_search_words` text. -/
def kwPred (terms : List String) (matchAll : Bool) (m : MomentRow) : Bool :=
  if matchAll then terms.all (fun t => ilike m.extracted_search_words (strLower t))
  else terms.any (fun t => ilike m.extracted_search_words (strLower t))

/-- Object WHERE clause: as `kwPred` but against `detected_object_names`. -/
def obPred (terms : List String) (matchAll : Bool) (m : MomentRow) : Bool :=
  if matchAll then terms.all (fun t => ilike m.detected_object_names (strLower t))
  else terms.any (fun t => ilike m.detected_object_names (strLower t))

/-- The `ORDER BY time_distance` relation of the video-segment search: a
result row's third component is the computed `ABS(timestamp_seconds - t)`. -/
def distLe (a b : MomentRow × VideoRow × ℚ) : Prop := a.2.2 ≤ b.2.2

instance : DecidableRel distLe := fun a b => by
  unfold distLe; infer_instance

instance : IsTotal (MomentRow × VideoRow × ℚ) distLe :=
  ⟨fun a b => le_total a.2.2 b.2.2⟩

instance : IsTrans (MomentRow × VideoRow × ℚ) distLe :=
  ⟨fun _ _ _ hab hbc => le_trans hab hbc⟩

/-- The shared `SELECT ... WHERE P ORDER BY video_id, timestamp_seconds
LIMIT lim` skeleton of the keyword, object and temporal searches. -/
def rankLimit (P : MomentRow × VideoRow → Bool) (lim : Nat) (st : DBState) :
    List (MomentRow × VideoRow) :=
  (orderByVidTs ((joinRows st).filter P)).take lim

/-- The text-search skeleton: as `rankLimit` but with SQL `DISTINCT`. -/
def rankLimitDistinct (P : MomentRow × VideoRow → Bool) (lim : Nat) (st : DBState) :
    List (MomentRow × VideoRow) :=
  (orderByVidTs (((joinRows st).filter P).dedup)).take lim

namespace App

/-- `search_by_text` of `app.py`: `SELECT DISTINCT ... WHERE
extracted_search_words ILIKE %q% OR original_filename ILIKE %q%
ORDER BY video_id, timestamp_seconds LIMIT limit`. -/
def search_by_text (st : DBState) (req : TextRequest) :
    Except ApiError (List (MomentRow × VideoRow)) :=
  match req.query with
  | none => .error (.badRequest "Query text is required")
  | some q =>
    if q = "" then .error (.badRequest "Query text is required")
    else
      let lim := req.limit.getD 50
      .ok (rankLimitDistinct (textPredApp q) lim st)

/-- `search_by_keywords` of `app.py`.  An absent or empty `keywords` list is
falsy in Python and yields the 400 response; with terms present the WHERE
clause joins the per-term `ILIKE` conditions with AND (`match_all`) or OR. -/
def search_by_keywords (st : DBState) (req : KeywordRequest) :
    Except ApiError (List (MomentRow × VideoRow)) :=
  match req.keywords with
  | none => .error (.badRequest "Keywords array is required")
  | some [] => .error (.badRequest "Keywords array is required")
  | some kws =>
    let lim := req.limit.getD 50
    let ma := req.match_all.getD false
    .ok (rankLimit (fun p => kwPred kws ma p.1) lim st)

/-- `search_by_objects` of `app.py`: same shape as the keyword search, against
`detected_object_names`. -/
def search_by_objects (st : DBState) (req : ObjectRequest) :
    Except ApiError (List (MomentRow × VideoRow)) :=
  match req.objects with
  | none => .error (.badRequest "Objects array is required")
  | some [] => .error (.badRequest "Objects array is required")
  | some obs =>
    let lim := req.limit.getD 50
    let ma := req.match_all.getD false
    .ok (rankLimit (fun p => obPred obs ma p.1) lim st)

/-- `search_by_time_range` of `app.py`: lower bound `start_time` (default 0),
upper bound only when `end_time` is present, video filter only when
`video_id` is truthy.  Note: an absent `end_time` does not fail — the WHERE
clause simply has no upper bound. -/
def search_by_time_range (st : DBState) (req : TemporalRequest) :
    Except ApiError (List (MomentRow × VideoRow)) :=
  let startT := req.start_time.getD 0
  let lim := req.limit.getD 50
  let keep : MomentRow × VideoRow → Bool := fun p =>
    decide (startT ≤ p.1.timestamp_seconds)
      && (match req.end_time with
          | some e => decide (p.1.timestamp_seconds ≤ e)
          | none => true)
      && (match req.video_id with
          | some v => if v = "" then true else p.1.video_id == v
          | none => true)
  .ok (rankLimit keep lim st)

/-- `search_video_segment` of `app.py`: requires a truthy `video_id` and a
non-None `timestamp`; tolerance defaults to 5.0; results carry the computed
`time_distance`, are ordered by it, and are capped by a hard `LIMIT 10`. -/
def search_video_segment (st : DBState) (req : SegmentRequest) :
    Except ApiError (List (MomentRow × VideoRow × ℚ)) :=
  match req.video_id, req.timestamp with
  | none, _ => .error (.badRequest "video_id and timestamp are required")
  | some _, none => .error (.badRequest "video_id and timestamp are required")
  | some vid, some t =>
    if vid = "" then .error (.badRequest "video_id and timestamp are required")
    else
      let tol := req.tolerance.getD 5
      let rows := (joinRows st).filter
        (fun p => p.1.video_id == vid && decide (|p.1.timestamp_seconds - t| ≤ tol))
      let withD := rows.map (fun p => (p.1, p.2, |p.1.timestamp_seconds - t|))
      .ok ((List.insertionSort distLe withD).take 10)

end App

namespace AppV

/-- `search_by_text` of `appV.py`: as `app.py`'s but the WHERE clause also
matches `detected_object_names`. -/
def search_by_text (st : DBState) (req : TextRequest) :
    Except ApiError (List (MomentRow × VideoRow)) :=
  match req.query with
  | none => .error (.badRequest "Query text is required")
  | some q =>
    if q = "" then .error (.badRequest "Query text is required")
    else
      let lim := req.limit.getD 50
      .ok (rankLimitDistinct (textPredAppV q) lim st)

end AppV

/-! ## Similarity primitives (spec §4.1, §9)

No cosine-similarity code is among the files under src/ (the five files
contain no embedding search); only the schema's `clip_embedding` column and
the spec describe it.  Both the mandated contract (§4.1) and the source
behaviour the spec reports (§9) are therefore modelled from the spec. -/

/-- Failure modes of the similarity computation (spec §4.1/§7). -/
inductive SimError where
  | dimensionMismatch
  | degenerateVector
  deriving DecidableEq, Repr

/-- Dot product of two equally-indexed vectors (over their zip). -/
def dotProd (a b : List ℚ) : ℚ :=
  ((a.zip b).map (fun p => p.1 * p.2)).sum

/-- Sum of squares of a vector's components. -/
def sumSq (a : List ℚ) : ℚ := (a.map (fun x => x * x)).sum

/-- Modelled from the spec: `cosineSimilarity` (§4.1) — the similarity code is
not under src/.  The contract: mismatched dimensionality or an empty vector
fails with `DimensionMismatch`; a zero-magnitude vector fails with
`DegenerateVector`.  The returned pair is the rational data `(a·b, |a|²·|b|²)`
from which the real-valued score `a·b / sqrt(|a|²·|b|²)` is derived; the
error checks at issue precede any score computation. -/
def cosineSimilarity (a b : List ℚ) : Except SimError (ℚ × ℚ) :=
  if a.length = 0 ∨ b.length = 0 ∨ a.length ≠ b.length then .error .dimensionMismatch
  else if sumSq a * sumSq b = 0 then .error .degenerateVector
  else .ok (dotProd a b, sumSq a * sumSq b)

/-- Modelled from the spec: the *source's* behaviour as §9 reports it — on
ragged embeddings it "pads/ignores rather than failing": it silently computes
over the zipped overlap of the two vectors and always returns a score, never
an error. -/
def cosineSimilaritySrc (a b : List ℚ) : ℚ × ℚ :=
  let a' := (a.zip b).map (fun p => p.1)
  let b' := (a.zip b).map (fun p => p.2)
  (dotProd a' b', sumSq a' * sumSq b')

/-! ## `parse_json_field` (`app.py` lines 38–47) and a model of `json.loads`

`parse_json_field` maps NULL to `[]`, re-decodes TEXT columns with
`json.loads` (any decode failure is swallowed to `[]`), and passes any other
value through unchanged.  `json.loads` is modelled by a recursive-descent
parser over the JSON value grammar this system stores (numbers without
exponent notation; string escapes for the printable-ASCII content). -/

/-- A decoded JSON value (the result type of the modelled `json.loads`). -/
inductive JValue where
  | null : JValue
  | bool (b : Bool) : JValue
  | num (q : ℚ) : JValue
  | str (s : String) : JValue
  | arr (elems : List JValue) : JValue
  | obj (fields : List (String × JValue)) : JValue

/-- The `\x7b` character. -/
def lbrace : Char := Char.ofNat 123

/-- The `\x7d` character. -/
def rbrace : Char := Char.ofNat 125

/-- Drop leading JSON whitespace. -/
def skipWs : List Char → List Char
  | c :: cs => if c = ' ' ∨ c = '\n' ∨ c = '\t' ∨ c = '\r' then skipWs cs else c :: cs
  | [] => []

/-- Parse the body of a JSON string literal (the opening quote already
consumed), returning the decoded characters and the rest of the input. -/
def parseStrChars : List Char → Option (List Char × List Char)
  | [] => none
  | c :: cs =>
    if c = '"' then some ([], cs)
    else if c = '\\' then
      match cs with
      | [] => none
      | e :: cs' =>
        let dec : Option Char :=
          if e = '"' then some '"'
          else if e = '\\' then some '\\'
          else if e = '/' then some '/'
          else if e = 'n' then some '\n'
          else if e = 't' then some '\t'
          else if e = 'r' then some '\r'
          else none
        match dec with
        | some d => (parseStrChars cs').map (fun p => (d :: p.1, p.2))
        | none => none
    else (parseStrChars cs).map (fun p => (c :: p.1, p.2))

/-- Split off a maximal run of decimal digits. -/
def spanDigits : List Char → List Char × List Char
  | [] => ([], [])
  | c :: cs =>
    if c.isDigit then
      let p := spanDigits cs
      (c :: p.1, p.2)
    else ([], c :: cs)

/-- Decimal digits to a natural number. -/
def digitsToNat (ds : List Char) : Nat :=
  ds.foldl (fun acc c => acc * 10 + (c.toNat - Char.toNat '0')) 0

/-- Parse a JSON number (integer or decimal fraction, optional minus). -/
def parseNum (cs : List Char) : Option (ℚ × List Char) :=
  let p := match cs with
    | '-' :: rest => (true, rest)
    | _ => (false, cs)
  match spanDigits p.2 with
  | ([], _) => none
  | (ds, rest) =>
    let intPart : ℚ := (digitsToNat ds : ℚ)
    match rest with
    | '.' :: rest2 =>
      (match spanDigits rest2 with
       | ([], _) => none
       | (fs, rest3) =>
         let v : ℚ := intPart + (digitsToNat fs : ℚ) / ((10 : ℚ) ^ fs.length)
         some (if p.1 then -v else v, rest3))
    | _ => some (if p.1 then -intPart else intPart, rest)

mutual

/-- Parse one JSON value; `fuel` bounds the nesting depth. -/
def parseVal : Nat → List Char → Option (JValue × List Char)
  | 0, _ => none
  | fuel + 1, cs =>
    match skipWs cs with
    | [] => none
    | c :: rest =>
      if c = 'n' then
        match rest with
        | 'u' :: 'l' :: 'l' :: rest' => some (.null, rest')
        | _ => none
      else if c = 't' then
        match rest with
        | 'r' :: 'u' :: 'e' :: rest' => some (.bool true, rest')
        | _ => none
      else if c = 'f' then
        match rest with
        | 'a' :: 'l' :: 's' :: 'e' :: rest' => some (.bool false, rest')
        | _ => none
      else if c = '"' then
        (parseStrChars rest).map (fun p => (.str ⟨p.1⟩, p.2))
      else if c = '[' then
        match skipWs rest with
        | ']' :: rest' => some (.arr [], rest')
        | cs' => (parseElems fuel cs').map (fun p => (.arr p.1, p.2))
      else if c = lbrace then
        match skipWs rest with
        | [] => none
        | c' :: rest' =>
          if c' = rbrace then some (.obj [], rest')
          else (parseMembers fuel (c' :: rest')).map (fun p => (.obj p.1, p.2))
      else if c = '-' ∨ c.isDigit then
        (parseNum (c :: rest)).map (fun p => (.num p.1, p.2))
      else none

/-- Parse a nonempty comma-separated list of values up to `]`. -/
def parseElems : Nat → List Char → Option (List JValue × List Char)
  | 0, _ => none
  | fuel + 1, cs =>
    match parseVal fuel cs with
    | none => none
    | some (v, rest) =>
      match skipWs rest with
      | ',' :: rest' =>
        (match parseElems fuel rest' with
         | some (vs, rest'') => some (v :: vs, rest'')
         | none => none)
      | ']' :: rest' => some ([v], rest')
      | _ => none

/-- Parse a nonempty comma-separated list of `"key": value` members up to
the closing brace. -/
def parseMembers : Nat → List Char → Option (List (String × JValue) × List Char)
  | 0, _ => none
  | fuel + 1, cs =>
    match skipWs cs with
    | '"' :: rest =>
      (match parseStrChars rest with
       | some (kcs, rest1) =>
         (match skipWs rest1 with
          | ':' :: rest2 =>
            (match parseVal fuel rest2 with
             | some (v, rest3) =>
               (match skipWs rest3 with
                | ',' :: rest4 =>
                  (match parseMembers fuel rest4 with
                   | some (ms, rest5) => some ((⟨kcs⟩, v) :: ms, rest5)
                   | none => none)
                | c :: rest4 =>
                  if c = rbrace then some ([(⟨kcs⟩, v)], rest4) else none
                | [] => none)
             | none => none)
          | _ => none)
       | none => none)
    | _ => none

end

/-- Python `json.loads`: parse one value, reject trailing garbage. -/
def json_loads (s : String) : Option JValue :=
  match parseVal (s.data.length + 1) s.data with
  | some (v, rest) => if skipWs rest = [] then some v else none
  | none => none

/-- A value read from a TEXT-or-NULL column as the Python driver delivers it:
SQL NULL, a string, or (defensively) an already-decoded value. -/
inductive DbValue where
  | null : DbValue
  | str (s : String) : DbValue
  | jval (j : JValue) : DbValue

/-- `parse_json_field` of `app.py`: total — `None` ↦ `[]`, undecodable
strings ↦ `[]` (the bare `except` branch), decodable strings ↦ their decoded
value, anything else ↦ itself. -/
def parse_json_field : DbValue → JValue
  | .null => .arr []
  | .str s =>
    match json_loads s with
    | some j => j
    | none => .arr []
  | .jval j => j

/-! ## Concrete fixtures

Small stores and reports used by the closed counterexamples and witnesses
below.  The TEXT fields hold exactly what the importer would have written. -/

/-- Fixture video `a`. -/
def fixVa : VideoRow :=
  { video_id := "a", original_filename := "alpha.mp4", compressed_filename := none,
    duration_seconds := 100, fps := 25, compressed_file_size_bytes := 0,
    processing_date_utc := none, scene_change_timestamps := "[]",
    keyframes_analyzed_count := 1, analysis_status := "completed", error_message := none }

/-- Fixture video `b`. -/
def fixVb : VideoRow :=
  { fixVa with
      video_id := "b", original_filename := "beta.mp4" }

/-- Fixture moment of video `a`: timestamp 2, words `["dog"]`, objects `["tree"]`. -/
def fixM1 : MomentRow :=
  { moment_id := "a_1", video_id := "a", frame_identifier := "f1", timestamp_seconds := 2,
    keyframe_image_path := none, clip_embedding := none,
    detected_object_names := "[\"tree\"]", extracted_search_words := "[\"dog\"]",
    average_color_rgb := "[0, 0, 0]", detailed_features := "\x7b\x7d" }

/-- Fixture moment of video `b`: timestamp 1, words `["dog", "cat"]`, objects
`["car"]` — it matches the query `car` only on its object names. -/
def fixM2 : MomentRow :=
  { fixM1 with
      moment_id := "b_1", video_id := "b", timestamp_seconds := 1,
      detected_object_names := "[\"car\"]", extracted_search_words := "[\"dog\", \"cat\"]" }

/-- The two-video fixture store. -/
def fixDb : DBState := { videos := [fixVa, fixVb], moments := [fixM1, fixM2] }

/-- A report keyframe with the given id and timestamp, all other fields absent. -/
def mkKf (mid : Option String) (ts : ℚ) : KeyframeData :=
  { moment_id := mid, frame_identifier := none, timestamp_seconds := some ts,
    keyframe_image_path := none, clip_embedding := none, detected_object_names := none,
    extracted_search_words := none, average_color_rgb := none, detailed_features := none }

/-- A report with the given internal video identifier and keyframe list, all
other fields absent. -/
def mkReport (vid : Option String) (kfs : List KeyframeData) : Report :=
  { video_id := vid, original_filename := none, compressed_filename := none,
    duration_seconds := none, fps := none, compressed_file_size_bytes := none,
    processing_date_utc := none, scene_change_timestamps := none,
    keyframes_analyzed_count := none, analysis_status := none, error_message := none,
    analyzed_keyframes := some kfs }

/-- A report whose two keyframes share a `moment_id`: the second insert
violates the `video_moments` primary key. -/
def fixDupReport : Report := mkReport none [mkKf (some "dup") 1, mkKf (some "dup") 2]

/-- A previously committed video row for folder `00001`. -/
def fixV01 : VideoRow :=
  { fixVa with
      video_id := "00001", original_filename := "00001.mp4" }

/-- A previously committed moment of video `00001`. -/
def fixM01 : MomentRow :=
  { fixM1 with
      moment_id := "00001_old", video_id := "00001" }

/-- The pre-transaction state for the rollback witness. -/
def fixSt01 : DBState := { videos := [fixV01], moments := [fixM01] }

/-- A well-formed two-keyframe report with no internal video id. -/
def fixOkReport : Report := mkReport none [mkKf (some "00002_f1") 1, mkKf (some "00002_f2") 2]

/-- A report whose internal `video_id` (`zzz`) differs from its folder name. -/
def fixAliasReport : Report := mkReport (some "zzz") [mkKf (some "k1") 3]

/-- A video row already stored under the folder name `00003`, so the alias
report's moment inserts satisfy the foreign key. -/
def fixV03 : VideoRow :=
  { fixVa with
      video_id := "00003", original_filename := "00003.mp4" }

/-- The pre-transaction state for the folder-keying witness. -/
def fixSt03 : DBState := { videos := [fixV03], moments := [] }

/-- The empty store. -/
def fixEmpty : DBState := { videos := [], moments := [] }

/-- The state after ingesting `fixOkReport` into the empty store. -/
def fixSt02 : DBState := import_single_video "00002" fixOkReport fixEmpty

/-- The state after ingesting the alias report into `fixSt03`. -/
def fixSt03' : DBState := import_single_video "00003" fixAliasReport fixSt03

/-! # Theorems

## Helper lemmas about the transaction body -/

theorem insertMoment_ok (m : MomentRow) (st st1 : DBState)
    (h : insertMoment m st = .ok st1) :
    st1.videos = st.videos ∧ st1.moments = st.moments ++ [m]
      ∧ (∀ x ∈ st.moments, ¬ x.moment_id = m.moment_id) := by
  unfold insertMoment at h
  split at h
  · cases h
  · split at h
    · cases h
      rename_i hdup _
      refine ⟨rfl, rfl, ?_⟩
      intro x hx he
      have : st.moments.any (fun x => x.moment_id == m.moment_id) = true :=
        List.any_eq_true.mpr ⟨x, hx, beq_iff_eq.mpr he⟩
      simp [this] at hdup
    · cases h

theorem insertMoments_ok_state (ms : List MomentRow) (st st' : DBState)
    (h : insertMoments ms st = .ok st') :
    st'.videos = st.videos ∧ st'.moments = st.moments ++ ms := by
  induction ms generalizing st with
  | nil =>
    simp only [insertMoments, Except.ok.injEq] at h
    simp [← h]
  | cons m rest ih =>
    simp only [insertMoments] at h
    cases hm : insertMoment m st with
    | error e => rw [hm] at h; cases h
    | ok st1 =>
      rw [hm] at h
      obtain ⟨hv1, hm1, _⟩ := insertMoment_ok m st st1 hm
      obtain ⟨hv2, hm2⟩ := ih st1 h
      constructor
      · rw [hv2, hv1]
      · rw [hm2, hm1]
        simp

theorem insertMoments_ok_fresh (ms : List MomentRow) (st st' : DBState)
    (h : insertMoments ms st = .ok st') :
    (ms.map (fun m => m.moment_id)).Nodup
      ∧ ∀ m ∈ ms, ∀ x ∈ st.moments, ¬ m.moment_id = x.moment_id := by
  induction ms generalizing st with
  | nil => simp
  | cons m rest ih =>
    simp only [insertMoments] at h
    cases hm : insertMoment m st with
    | error e => rw [hm] at h; cases h
    | ok st1 =>
      rw [hm] at h
      obtain ⟨_, hm1, hfr⟩ := insertMoment_ok m st st1 hm
      obtain ⟨hnd, hfresh⟩ := ih st1 h
      constructor
      · refine List.nodup_cons.mpr ⟨?_, hnd⟩
        intro hmem
        obtain ⟨m', hm', he⟩ := List.mem_map.mp hmem
        have := hfresh m' hm' m (by rw [hm1]; exact List.mem_append_right _ (List.mem_singleton.mpr rfl))
        exact this he
      · intro m'' hm'' x hx
        rcases List.mem_cons.mp hm'' with rfl | hrest
        · intro he
          exact hfr x hx he.symm
        · exact hfresh m'' hrest x (by rw [hm1]; exact List.mem_append_left _ hx)

/-- C1: if any step of the ingestion transaction fails — the video upsert, the
deletion of the video's existing moments, or the insertion of any moment from
the report — the whole transaction is rolled back: the visible state is the
pre-transaction state, so the video row and the moment set stored under that
video identifier are exactly as they were before the call, with no partial
moment set, no orphans and no duplicates from the failed attempt. -/
theorem ingest_rollback_atomic (folderId : String) (r : Report) (st : DBState) (e : String)
    (h : runIngest folderId r st = .error e) :
    import_single_video folderId r st = st
    ∧ momentsFor folderId (import_single_video folderId r st) = momentsFor folderId st
    ∧ videoLookup folderId (import_single_video folderId r st) = videoLookup folderId st := by
  have hv : import_single_video folderId r st = st := by
    unfold import_single_video
    rw [h]
  exact ⟨hv, by rw [hv], by rw [hv]⟩

/-- Witness for C1: a report whose second keyframe duplicates the first's
`moment_id` makes the insert step fail, and the pre-existing state — one
committed video row with one committed moment — is left exactly as it was. -/
theorem ingest_rollback_atomic_witness :
    runIngest "00001" fixDupReport fixSt01 =
      .error "duplicate key value violates unique constraint: dup"
    ∧ import_single_video "00001" fixDupReport fixSt01 = fixSt01 := by
  constructor
  · decide
  · exact (ingest_rollback_atomic "00001" fixDupReport fixSt01
      "duplicate key value violates unique constraint: dup" (by decide)).1

/-! ## Helper lemmas: upsert and delete-then-insert -/

theorem upsertVideo_mem (v : VideoRow) (vs : List VideoRow) : v ∈ upsertVideo v vs := by
  unfold upsertVideo
  split
  · rename_i h
    obtain ⟨w, hw, hbeq⟩ := List.any_eq_true.mp h
    exact List.mem_map.mpr ⟨w, hw, by rw [if_pos (beq_iff_eq.mp hbeq)]⟩
  · exact List.mem_append_right _ (List.mem_singleton.mpr rfl)

theorem upsertVideo_key_unique (v : VideoRow) (vs : List VideoRow) :
    ∀ x ∈ upsertVideo v vs, x.video_id = v.video_id → x = v := by
  intro x hx hxe
  unfold upsertVideo at hx
  split at hx
  · obtain ⟨w, hw, hwe⟩ := List.mem_map.mp hx
    by_cases h2 : w.video_id = v.video_id
    · rw [if_pos h2] at hwe
      exact hwe.symm
    · rw [if_neg h2] at hwe
      cases hwe
      exact absurd hxe h2
  · rcases List.mem_append.mp hx with h | h
    · rename_i hany
      have : vs.any (fun w => w.video_id == v.video_id) = true :=
        List.any_eq_true.mpr ⟨x, h, beq_iff_eq.mpr hxe⟩
      exact absurd this hany
    · exact List.mem_singleton.mp h

theorem upsertVideo_idem (v : VideoRow) (vs : List VideoRow) :
    upsertVideo v (upsertVideo v vs) = upsertVideo v vs := by
  have hmem : v ∈ upsertVideo v vs := upsertVideo_mem v vs
  have huniq := upsertVideo_key_unique v vs
  set L := upsertVideo v vs with hL
  have hany : L.any (fun w => w.video_id == v.video_id) = true :=
    List.any_eq_true.mpr ⟨v, hmem, by simp⟩
  unfold upsertVideo
  rw [if_pos hany]
  have hfix : ∀ x ∈ L, (if x.video_id = v.video_id then v else x) = x := by
    intro x hx
    by_cases hxe : x.video_id = v.video_id
    · rw [if_pos hxe, huniq x hx hxe]
    · rw [if_neg hxe]
  calc L.map (fun x => if x.video_id = v.video_id then v else x)
      = L.map id := List.map_congr_left hfix
    _ = L := List.map_id L

theorem runIngest_eq (fid : String) (r : Report) (st : DBState) :
    runIngest fid r st = insertMoments (momentRowsOf fid r)
      { videos := upsertVideo (videoRowOf fid r) st.videos,
        moments := st.moments.filter (fun m => !(m.video_id == fid)) } := rfl

theorem runIngest_ok_state (fid : String) (r : Report) (st st' : DBState)
    (h : runIngest fid r st = .ok st') :
    st'.videos = upsertVideo (videoRowOf fid r) st.videos
    ∧ st'.moments
        = st.moments.filter (fun m => !(m.video_id == fid)) ++ momentRowsOf fid r := by
  rw [runIngest_eq] at h
  exact insertMoments_ok_state _ _ _ h

theorem momentRowsOf_vid (fid : String) (r : Report) :
    ∀ m ∈ momentRowsOf fid r, m.video_id = fid := by
  intro m hm
  obtain ⟨p, _, rfl⟩ := List.mem_map.mp hm
  rfl

theorem filter_notfid_stable (fid : String) (l ms : List MomentRow)
    (hms : ∀ m ∈ ms, m.video_id = fid) :
    (l.filter (fun m => !(m.video_id == fid)) ++ ms).filter (fun m => !(m.video_id == fid))
      = l.filter (fun m => !(m.video_id == fid)) := by
  rw [List.filter_append]
  have h1 : (l.filter (fun m => !(m.video_id == fid))).filter
      (fun m => !(m.video_id == fid)) = l.filter (fun m => !(m.video_id == fid)) := by
    rw [List.filter_filter]
    apply List.filter_congr
    intro m _
    simp
  have h2 : ms.filter (fun m => !(m.video_id == fid)) = [] := by
    rw [List.filter_eq_nil_iff]
    intro m hm
    simp [hms m hm]
  rw [h1, h2, List.append_nil]

theorem runIngest_ok_momentsFor (fid : String) (r : Report) (st st' : DBState)
    (h : runIngest fid r st = .ok st') :
    momentsFor fid st' = momentRowsOf fid r := by
  obtain ⟨_, hm⟩ := runIngest_ok_state fid r st st' h
  unfold momentsFor
  rw [hm, List.filter_append]
  have h1 : (st.moments.filter (fun m => !(m.video_id == fid))).filter
      (fun m => m.video_id == fid) = [] := by
    rw [List.filter_filter, List.filter_eq_nil_iff]
    intro m _
    by_cases hv : m.video_id = fid <;> simp [hv]
  have h2 : (momentRowsOf fid r).filter (fun m => m.video_id == fid)
      = momentRowsOf fid r := by
    rw [List.filter_eq_self]
    intro m hm
    exact beq_iff_eq.mpr (momentRowsOf_vid fid r m hm)
  rw [h1, h2, List.nil_append]

theorem runIngest_idem (fid : String) (r : Report) (st st' : DBState)
    (h : runIngest fid r st = .ok st') : runIngest fid r st' = .ok st' := by
  obtain ⟨hv, hm⟩ := runIngest_ok_state fid r st st' h
  rw [runIngest_eq] at h ⊢
  have hv' : upsertVideo (videoRowOf fid r) st'.videos
      = upsertVideo (videoRowOf fid r) st.videos := by
    rw [hv]
    exact upsertVideo_idem _ _
  have hm' : st'.moments.filter (fun m => !(m.video_id == fid))
      = st.moments.filter (fun m => !(m.video_id == fid)) := by
    rw [hm]
    exact filter_notfid_stable fid st.moments _ (momentRowsOf_vid fid r)
  rw [hv', hm']
  exact h

/-- C2: ingestion is idempotent per video identifier — running
`import_single_video` on the same report twice leaves the store in the state
one run produces, and on a successful run the moments stored under the folder
identifier are exactly the report's keyframe rows: their count equals the
keyframe count and their `moment_id`s contain no duplicates. -/
theorem ingest_idempotent (folderId : String) (r : Report) (st : DBState) :
    import_single_video folderId r (import_single_video folderId r st)
      = import_single_video folderId r st
    ∧ ∀ st', runIngest folderId r st = .ok st' →
        momentsFor folderId st' = momentRowsOf folderId r
        ∧ (momentsFor folderId st').length = (r.analyzed_keyframes.getD []).length
        ∧ ((momentsFor folderId st').map (fun m => m.moment_id)).Nodup := by
  constructor
  · cases hrun : runIngest folderId r st with
    | error e =>
      have h1 : import_single_video folderId r st = st := by
        unfold import_single_video
        rw [hrun]
      rw [h1]
      exact h1
    | ok st' =>
      have h1 : import_single_video folderId r st = st' := by
        unfold import_single_video
        rw [hrun]
      have h3 : import_single_video folderId r st' = st' := by
        unfold import_single_video
        rw [runIngest_idem folderId r st st' hrun]
      rw [h1, h3]
  · intro st' h
    have hmf := runIngest_ok_momentsFor folderId r st st' h
    refine ⟨hmf, ?_, ?_⟩
    · rw [hmf]
      unfold momentRowsOf
      rw [List.length_map, List.enum_length]
    · rw [hmf]
      rw [runIngest_eq] at h
      exact (insertMoments_ok_fresh _ _ _ h).1

/-- Witness for C2 at a concrete successful ingest of a two-keyframe report
into the empty store: exactly 2 distinct moments, and a second run reproduces
the same state. -/
theorem ingest_idempotent_witness :
    runIngest "00002" fixOkReport fixEmpty = .ok fixSt02
    ∧ momentsFor "00002" fixSt02 = momentRowsOf "00002" fixOkReport
    ∧ (momentsFor "00002" fixSt02).length = 2
    ∧ ((momentsFor "00002" fixSt02).map (fun m => m.moment_id)).Nodup
    ∧ import_single_video "00002" fixOkReport fixSt02 = fixSt02 := by
  have h : runIngest "00002" fixOkReport fixEmpty = .ok fixSt02 := by decide
  obtain ⟨hid, hcnt⟩ := ingest_idempotent "00002" fixOkReport fixEmpty
  obtain ⟨ha, hb, hc⟩ := hcnt fixSt02 h
  refine ⟨h, ha, ?_, hc, hid⟩
  rw [hb]
  decide

/-- C9: the delete and the inserts of an ingest are keyed by the dataset
folder name, while the video row is upserted under the report's internal
`video_id` when present: after a successful run the folder identifier owns
exactly the report's moment rows, every inserted row's `video_id` is the
folder name, the upserted video row's key is `report.video_id` (defaulting to
the folder name), and the moment sets of all other identifiers are untouched. -/
theorem ingest_keys_by_folder (folderId : String) (r : Report) (st st' : DBState)
    (h : runIngest folderId r st = .ok st') :
    momentsFor folderId st' = momentRowsOf folderId r
    ∧ (∀ m ∈ momentRowsOf folderId r, m.video_id = folderId)
    ∧ st'.videos = upsertVideo (videoRowOf folderId r) st.videos
    ∧ (videoRowOf folderId r).video_id = r.video_id.getD folderId
    ∧ (∀ vid, vid ≠ folderId → momentsFor vid st' = momentsFor vid st) := by
  obtain ⟨hv, hm⟩ := runIngest_ok_state folderId r st st' h
  refine ⟨runIngest_ok_momentsFor folderId r st st' h,
    momentRowsOf_vid folderId r, hv, rfl, ?_⟩
  intro vid hne
  unfold momentsFor
  rw [hm, List.filter_append]
  have h2 : (momentRowsOf folderId r).filter (fun m => m.video_id == vid) = [] := by
    rw [List.filter_eq_nil_iff]
    intro m hmem
    have := momentRowsOf_vid folderId r m hmem
    simp [this, Ne.symm hne]
  have h1 : (st.moments.filter (fun m => !(m.video_id == folderId))).filter
        (fun m => m.video_id == vid)
      = st.moments.filter (fun m => m.video_id == vid) := by
    rw [List.filter_filter]
    apply List.filter_congr
    intro m _
    by_cases hmv : m.video_id = vid
    · simp [hmv, hne]
    · simp [hmv]
  rw [h1, h2, List.append_nil]

/-- Witness for C9: ingesting a report whose internal `video_id` is `zzz`
from folder `00003` stores its single moment under `00003`, upserts the video
row under `zzz`, and leaves `zzz`'s moment set empty. -/
theorem ingest_keys_by_folder_witness :
    runIngest "00003" fixAliasReport fixSt03 = .ok fixSt03'
    ∧ momentsFor "00003" fixSt03' = momentRowsOf "00003" fixAliasReport
    ∧ (momentRowsOf "00003" fixAliasReport).length = 1
    ∧ videoLookup "zzz" fixSt03' = some (videoRowOf "00003" fixAliasReport)
    ∧ momentsFor "zzz" fixSt03' = [] := by
  have h : runIngest "00003" fixAliasReport fixSt03 = .ok fixSt03' := by decide
  obtain ⟨h1, _, _, _, h5⟩ := ingest_keys_by_folder "00003" fixAliasReport fixSt03 fixSt03' h
  refine ⟨h, h1, by decide, by decide, ?_⟩
  rw [h5 "zzz" (by decide)]
  decide

/-! ## Helper lemmas: the query pipeline -/

theorem charsLt_irrefl (l : List Char) : charsLt l l = false := by
  induction l with
  | nil => rfl
  | cons a as ih => simp [charsLt, ih]

theorem strLtB_irrefl (s : String) : strLtB s s = false := charsLt_irrefl s.data

theorem vtLe_ts_of_same_vid (a b : MomentRow × VideoRow) (h : vtLe a b)
    (he : a.1.video_id = b.1.video_id) :
    a.1.timestamp_seconds ≤ b.1.timestamp_seconds := by
  rcases h with h | ⟨_, ht⟩
  · rw [he, strLtB_irrefl] at h
    cases h
  · exact ht

theorem mem_rankLimit (P : MomentRow × VideoRow → Bool) (lim : Nat) (st : DBState)
    (p : MomentRow × VideoRow) (h : p ∈ rankLimit P lim st) :
    p ∈ joinRows st ∧ P p = true := by
  unfold rankLimit orderByVidTs at h
  have h1 := List.take_subset lim _ h
  have h2 := (List.mem_insertionSort vtLe).mp h1
  exact List.mem_filter.mp h2

theorem rankLimit_complete (P : MomentRow × VideoRow → Bool) (lim : Nat) (st : DBState)
    (hlen : ((joinRows st).filter P).length ≤ lim)
    (p : MomentRow × VideoRow) (hp : p ∈ joinRows st) (hP : P p = true) :
    p ∈ rankLimit P lim st := by
  unfold rankLimit orderByVidTs
  rw [List.take_of_length_le (by rw [List.length_insertionSort]; exact hlen)]
  exact (List.mem_insertionSort vtLe).mpr (List.mem_filter.mpr ⟨hp, hP⟩)

theorem sorted_rankLimit (P : MomentRow × VideoRow → Bool) (lim : Nat) (st : DBState) :
    (rankLimit P lim st).Sorted vtLe :=
  (List.sorted_insertionSort vtLe _).sublist (List.take_sublist lim _)

theorem mem_rankLimitDistinct (P : MomentRow × VideoRow → Bool) (lim : Nat) (st : DBState)
    (p : MomentRow × VideoRow) (h : p ∈ rankLimitDistinct P lim st) :
    p ∈ joinRows st ∧ P p = true := by
  unfold rankLimitDistinct orderByVidTs at h
  have h1 := List.take_subset lim _ h
  have h2 := (List.mem_insertionSort vtLe).mp h1
  exact List.mem_filter.mp (List.mem_dedup.mp h2)

theorem rankLimitDistinct_complete (P : MomentRow × VideoRow → Bool) (lim : Nat)
    (st : DBState) (hlen : ((joinRows st).filter P).dedup.length ≤ lim)
    (p : MomentRow × VideoRow) (hp : p ∈ joinRows st) (hP : P p = true) :
    p ∈ rankLimitDistinct P lim st := by
  unfold rankLimitDistinct orderByVidTs
  rw [List.take_of_length_le (by rw [List.length_insertionSort]; exact hlen)]
  exact (List.mem_insertionSort vtLe).mpr
    (List.mem_dedup.mpr (List.mem_filter.mpr ⟨hp, hP⟩))

theorem sorted_rankLimitDistinct (P : MomentRow × VideoRow → Bool) (lim : Nat)
    (st : DBState) : (rankLimitDistinct P lim st).Sorted vtLe :=
  (List.sorted_insertionSort vtLe _).sublist (List.take_sublist lim _)

/-- Counterexample to C5 as stated: two matching moments in different videos
come back ordered by `video_id` first, so the whole result list is not in
ascending `timestamp_seconds` (video `a`'s moment at 2 s precedes video `b`'s
moment at 1 s). -/
theorem keyword_sort_counterexample :
    App.search_by_keywords fixDb ⟨some ["dog"], none, none⟩
      = .ok [(fixM1, fixVa), (fixM2, fixVb)]
    ∧ ¬ ([(fixM1, fixVa), (fixM2, fixVb)] : List (MomentRow × VideoRow)).Sorted
        (fun a b => a.1.timestamp_seconds ≤ b.1.timestamp_seconds) := by
  exact ⟨by decide, by decide⟩

/-- C5 (amended): keyword-search results are sorted by `(video_id,
timestamp_seconds)` lexicographically — ascending timestamp holds within each
video, not across the whole list. -/
theorem keyword_results_sorted (st : DBState) (req : KeywordRequest)
    (res : List (MomentRow × VideoRow)) (h : App.search_by_keywords st req = .ok res) :
    res.Sorted vtLe
    ∧ res.Pairwise (fun a b => a.1.video_id = b.1.video_id →
        a.1.timestamp_seconds ≤ b.1.timestamp_seconds) := by
  obtain ⟨kw, lim, ma⟩ := req
  cases kw with
  | none => simp [App.search_by_keywords] at h
  | some l =>
    cases l with
    | nil => simp [App.search_by_keywords] at h
    | cons k ks =>
      have hres : res = rankLimit (fun p => kwPred (k :: ks) ((ma).getD false) p.1)
          (lim.getD 50) st := by
        simpa [App.search_by_keywords] using h.symm
      subst hres
      refine ⟨sorted_rankLimit _ _ _, ?_⟩
      exact (sorted_rankLimit _ _ _).imp (fun hab he => vtLe_ts_of_same_vid _ _ hab he)

/-- Witness for C5 (amended) at a concrete two-video store: the result is
`vtLe`-sorted. -/
theorem keyword_results_sorted_witness :
    App.search_by_keywords fixDb ⟨some ["dog"], some 50, some false⟩
      = .ok [(fixM1, fixVa), (fixM2, fixVb)]
    ∧ ([(fixM1, fixVa), (fixM2, fixVb)] : List (MomentRow × VideoRow)).Sorted vtLe := by
  have h : App.search_by_keywords fixDb ⟨some ["dog"], some 50, some false⟩
      = .ok [(fixM1, fixVa), (fixM2, fixVb)] := by decide
  exact ⟨h, (keyword_results_sorted fixDb _ _ h).1⟩

theorem all_imp_any (l : List String) (hl : l ≠ []) (f : String → Bool)
    (h : l.all f = true) : l.any f = true := by
  cases l with
  | nil => exact absurd rfl hl
  | cons t ts =>
    rw [List.all_cons, Bool.and_eq_true] at h
    rw [List.any_cons, h.1, Bool.true_or]

theorem kwPred_all_imp_any (terms : List String) (hne : terms ≠ []) (m : MomentRow)
    (h : kwPred terms true m = true) : kwPred terms false m = true := by
  unfold kwPred at h ⊢
  rw [if_pos rfl] at h
  rw [if_neg Bool.false_ne_true]
  exact all_imp_any terms hne _ h

theorem obPred_all_imp_any (terms : List String) (hne : terms ≠ []) (m : MomentRow)
    (h : obPred terms true m = true) : obPred terms false m = true := by
  unfold obPred at h ⊢
  rw [if_pos rfl] at h
  rw [if_neg Bool.false_ne_true]
  exact all_imp_any terms hne _ h

/-- Counterexample to C6 as stated: with the limit cap (here 1) applied after
sorting, the truncated `matchAll=true` result need not be contained in the
truncated `matchAll=false` result — the AND-matching moment sorts after the
OR-only moment that fills the cap. -/
theorem matchAll_subset_counterexample :
    App.search_by_keywords fixDb ⟨some ["dog", "cat"], some 1, some true⟩
      = .ok [(fixM2, fixVb)]
    ∧ App.search_by_keywords fixDb ⟨some ["dog", "cat"], some 1, some false⟩
      = .ok [(fixM1, fixVa)]
    ∧ (fixM2, fixVb) ∉ ([(fixM1, fixVa)] : List (MomentRow × VideoRow)) := by
  exact ⟨by decide, by decide, by decide⟩

/-- C6 (amended): before the limit is applied the `matchAll=true` match set is
contained in the `matchAll=false` match set (for a non-empty term list), for
both the keyword and the object search; the returned (capped) lists satisfy
the containment whenever the limit does not truncate the `matchAll=false`
result. -/
theorem matchAll_subset (st : DBState) (terms : List String) (lim : Nat)
    (hne : terms ≠ []) :
    (∀ m : MomentRow, kwPred terms true m = true → kwPred terms false m = true)
    ∧ (∀ m : MomentRow, obPred terms true m = true → obPred terms false m = true)
    ∧ (((joinRows st).filter (fun p => kwPred terms false p.1)).length ≤ lim →
        ∀ resT resF,
          App.search_by_keywords st ⟨some terms, some lim, some true⟩ = .ok resT →
          App.search_by_keywords st ⟨some terms, some lim, some false⟩ = .ok resF →
          ∀ p ∈ resT, p ∈ resF)
    ∧ (((joinRows st).filter (fun p => obPred terms false p.1)).length ≤ lim →
        ∀ resT resF,
          App.search_by_objects st ⟨some terms, some lim, some true⟩ = .ok resT →
          App.search_by_objects st ⟨some terms, some lim, some false⟩ = .ok resF →
          ∀ p ∈ resT, p ∈ resF) := by
  obtain ⟨t, ts, rfl⟩ : ∃ t ts, terms = t :: ts := by
    cases terms with
    | nil => exact absurd rfl hne
    | cons t ts => exact ⟨t, ts, rfl⟩
  refine ⟨fun m => kwPred_all_imp_any _ hne m, fun m => obPred_all_imp_any _ hne m, ?_, ?_⟩
  · intro hlen resT resF hT hF p hp
    have hresT : resT = rankLimit (fun p => kwPred (t :: ts) true p.1) lim st := by
      simpa [App.search_by_keywords] using hT.symm
    have hresF : resF = rankLimit (fun p => kwPred (t :: ts) false p.1) lim st := by
      simpa [App.search_by_keywords] using hF.symm
    subst hresT hresF
    obtain ⟨hjoin, hpred⟩ := mem_rankLimit _ _ _ _ hp
    exact rankLimit_complete _ _ _ hlen p hjoin (kwPred_all_imp_any _ hne _ hpred)
  · intro hlen resT resF hT hF p hp
    have hresT : resT = rankLimit (fun p => obPred (t :: ts) true p.1) lim st := by
      simpa [App.search_by_objects] using hT.symm
    have hresF : resF = rankLimit (fun p => obPred (t :: ts) false p.1) lim st := by
      simpa [App.search_by_objects] using hF.symm
    subst hresT hresF
    obtain ⟨hjoin, hpred⟩ := mem_rankLimit _ _ _ _ hp
    exact rankLimit_complete _ _ _ hlen p hjoin (obPred_all_imp_any _ hne _ hpred)

/-- Witness for C6 (amended) at a concrete store and an uncut limit: every
row of the `matchAll=true` keyword result is in the `matchAll=false` result. -/
theorem matchAll_subset_witness :
    App.search_by_keywords fixDb ⟨some ["dog"], some 50, some true⟩
      = .ok [(fixM1, fixVa), (fixM2, fixVb)]
    ∧ App.search_by_keywords fixDb ⟨some ["dog"], some 50, some false⟩
      = .ok [(fixM1, fixVa), (fixM2, fixVb)]
    ∧ ∀ p ∈ ([(fixM1, fixVa), (fixM2, fixVb)] : List (MomentRow × VideoRow)),
        p ∈ ([(fixM1, fixVa), (fixM2, fixVb)] : List (MomentRow × VideoRow)) := by
  have hT : App.search_by_keywords fixDb ⟨some ["dog"], some 50, some true⟩
      = .ok [(fixM1, fixVa), (fixM2, fixVb)] := by decide
  have hF : App.search_by_keywords fixDb ⟨some ["dog"], some 50, some false⟩
      = .ok [(fixM1, fixVa), (fixM2, fixVb)] := by decide
  exact ⟨hT, hF,
    (matchAll_subset fixDb ["dog"] 50 (by decide)).2.2.1 (by decide) _ _ hT hF⟩

/-- Counterexample to C3 as stated: a moment that matches the query only on
its detected object names (`fixM2`, objects `["car"]`, query `car`) is
returned by `appV.py`'s text search but not by `app.py`'s — `app.py`'s WHERE
clause does not search `detected_object_names`. -/
theorem text_search_counterexample :
    AppV.search_by_text fixDb ⟨some "car", none⟩ = .ok [(fixM2, fixVb)]
    ∧ App.search_by_text fixDb ⟨some "car", none⟩ = .ok []
    ∧ ilike fixM2.detected_object_names "car" = true
    ∧ ilike fixM2.extracted_search_words "car" = false
    ∧ ilike fixVb.original_filename "car" = false := by
  exact ⟨by decide, by decide, by decide, by decide, by decide⟩

/-- C3 (amended): `appV.py`'s text search returns exactly (up to the result
cap) the joined moments whose stored search-word text, object-name text, or
parent filename contains the query case-insensitively; `app.py`'s text search
matches only search words or filename, so an object-only match is absent
there. -/
theorem text_search_match (st : DBState) (q : String) (lim : Nat) (hq : q ≠ "") :
    (∀ res, AppV.search_by_text st ⟨some q, some lim⟩ = .ok res →
      (∀ p ∈ res, p ∈ joinRows st ∧ textPredAppV q p = true)
      ∧ (((joinRows st).filter (textPredAppV q)).dedup.length ≤ lim →
          ∀ p ∈ joinRows st, textPredAppV q p = true → p ∈ res))
    ∧ (∀ res, App.search_by_text st ⟨some q, some lim⟩ = .ok res →
      (∀ p ∈ res, p ∈ joinRows st ∧ textPredApp q p = true)
      ∧ (((joinRows st).filter (textPredApp q)).dedup.length ≤ lim →
          ∀ p ∈ joinRows st, textPredApp q p = true → p ∈ res)) := by
  constructor
  · intro res h
    have hres : res = rankLimitDistinct (textPredAppV q) lim st := by
      simpa [AppV.search_by_text, hq] using h.symm
    subst hres
    exact ⟨fun p hp => mem_rankLimitDistinct _ _ _ p hp,
      fun hlen p hp hP => rankLimitDistinct_complete _ _ _ hlen p hp hP⟩
  · intro res h
    have hres : res = rankLimitDistinct (textPredApp q) lim st := by
      simpa [App.search_by_text, hq] using h.symm
    subst hres
    exact ⟨fun p hp => mem_rankLimitDistinct _ _ _ p hp,
      fun hlen p hp hP => rankLimitDistinct_complete _ _ _ hlen p hp hP⟩

/-- Witness for C3 (amended): at the fixture store and query `car`, the
object-only match is produced by `appV.py`'s search via the completeness
direction of the theorem. -/
theorem text_search_match_witness :
    AppV.search_by_text fixDb ⟨some "car", some 50⟩ = .ok [(fixM2, fixVb)]
    ∧ (fixM2, fixVb) ∈ ([(fixM2, fixVb)] : List (MomentRow × VideoRow)) := by
  have h : AppV.search_by_text fixDb ⟨some "car", some 50⟩ = .ok [(fixM2, fixVb)] := by
    decide
  exact ⟨h, ((text_search_match fixDb "car" 50 (by decide)).1 _ h).2
    (by decide) _ (by decide) (by decide)⟩

/-- Counterexample to C4 as stated: a temporal query whose `end_time` is
absent does not fail with a validation error — the handler simply omits the
upper bound and returns the moments at or above `start_time`. -/
theorem temporal_missing_end_counterexample :
    App.search_by_time_range fixDb ⟨none, none, none, none⟩
      = .ok [(fixM1, fixVa), (fixM2, fixVb)]
    ∧ ∀ e, App.search_by_time_range fixDb ⟨none, none, none, none⟩ ≠ .error e := by
  have h : App.search_by_time_range fixDb ⟨none, none, none, none⟩
      = .ok [(fixM1, fixVa), (fixM2, fixVb)] := by decide
  refine ⟨h, ?_⟩
  intro e he
  rw [h] at he
  cases he

/-- C4 (amended): a temporal query with `end` absent succeeds — no
`MissingField` failure occurs — and the WHERE clause keeps only the lower
bound (plus the optional video filter): the range is unbounded above, so up to
the cap every joined moment at or after `start_time` that passes the video
filter is returned. -/
theorem temporal_no_end_unbounded (st : DBState) (req : TemporalRequest)
    (hend : req.end_time = none) :
    ∃ res, App.search_by_time_range st req = .ok res
      ∧ (∀ p ∈ res, req.start_time.getD 0 ≤ p.1.timestamp_seconds)
      ∧ (((joinRows st).filter (fun p =>
            decide (req.start_time.getD 0 ≤ p.1.timestamp_seconds)
              && (match req.video_id with
                  | some v => if v = "" then true else p.1.video_id == v
                  | none => true))).length ≤ req.limit.getD 50 →
          ∀ p ∈ joinRows st,
            req.start_time.getD 0 ≤ p.1.timestamp_seconds →
            (match req.video_id with
              | some v => if v = "" then true else p.1.video_id == v
              | none => true) = true →
            p ∈ res) := by
  have hkeq : (fun p : MomentRow × VideoRow =>
        decide (req.start_time.getD 0 ≤ p.1.timestamp_seconds)
          && (match req.end_time with
              | some e => decide (p.1.timestamp_seconds ≤ e)
              | none => true)
          && (match req.video_id with
              | some v => if v = "" then true else p.1.video_id == v
              | none => true))
      = (fun p : MomentRow × VideoRow =>
        decide (req.start_time.getD 0 ≤ p.1.timestamp_seconds)
          && (match req.video_id with
              | some v => if v = "" then true else p.1.video_id == v
              | none => true)) := by
    funext p
    rw [hend]
    simp
  refine ⟨_, rfl, ?_, ?_⟩
  · intro p hp
    obtain ⟨_, hkeep⟩ := mem_rankLimit _ _ _ _ hp
    simp only [Bool.and_eq_true, decide_eq_true_eq] at hkeep
    exact hkeep.1.1
  · intro hlen p hp hts hvid
    show p ∈ rankLimit _ (req.limit.getD 50) st
    rw [hkeq]
    refine rankLimit_complete _ _ _ hlen p hp ?_
    rw [Bool.and_eq_true, decide_eq_true_eq]
    exact ⟨hts, hvid⟩

/-- Witness for C4 (amended): with `start_time = 2` and no `end_time`, the
query succeeds and the returned moment is at timestamp 2. -/
theorem temporal_no_end_unbounded_witness :
    App.search_by_time_range fixDb ⟨none, some 2, none, none⟩ = .ok [(fixM1, fixVa)]
    ∧ (2 : ℚ) ≤ fixM1.timestamp_seconds := by
  have hconc : App.search_by_time_range fixDb ⟨none, some 2, none, none⟩
      = .ok [(fixM1, fixVa)] := by decide
  obtain ⟨res, hres, hall⟩ :=
    temporal_no_end_unbounded fixDb ⟨none, some 2, none, none⟩ rfl
  have hre : res = [(fixM1, fixVa)] := by
    rw [hres] at hconc
    exact (Except.ok.injEq _ _).mp hconc
  refine ⟨hconc, ?_⟩
  have := hall.1 (fixM1, fixVa) (by rw [hre]; exact List.mem_singleton.mpr rfl)
  simpa using this

/-- C7: a segment query returns at most 10 rows — the SQL `LIMIT 10` is fixed
and any caller-supplied `limit` field is never read — each returned row
belongs to the requested video with `|timestamp_seconds - timestamp| <=
tolerance` (tolerance defaulting to 5.0), the attached `time_distance` is that
absolute difference, and rows are ordered by ascending `time_distance`. -/
theorem segment_query_spec (st : DBState) (req : SegmentRequest)
    (res : List (MomentRow × VideoRow × ℚ))
    (h : App.search_video_segment st req = .ok res) :
    res.length ≤ 10
    ∧ res.Sorted distLe
    ∧ ∀ vid t, req.video_id = some vid → req.timestamp = some t →
        ∀ x ∈ res, x.1.video_id = vid
          ∧ |x.1.timestamp_seconds - t| ≤ req.tolerance.getD 5
          ∧ x.2.2 = |x.1.timestamp_seconds - t| := by
  obtain ⟨ovid, ots, otol, olim⟩ := req
  cases ovid with
  | none => simp [App.search_video_segment] at h
  | some vid =>
    cases ots with
    | none => simp [App.search_video_segment] at h
    | some t =>
      by_cases hv : vid = ""
      · simp [App.search_video_segment, hv] at h
      · have hres : res = (List.insertionSort distLe
            (((joinRows st).filter (fun p => p.1.video_id == vid
              && decide (|p.1.timestamp_seconds - t| ≤ otol.getD 5))).map
              (fun p => (p.1, p.2, |p.1.timestamp_seconds - t|)))).take 10 := by
          simpa [App.search_video_segment, hv] using h.symm
        subst hres
        refine ⟨?_, ?_, ?_⟩
        · rw [List.length_take]
          exact min_le_left _ _
        · exact (List.sorted_insertionSort distLe _).sublist (List.take_sublist 10 _)
        · intro vid' t' hv' ht' x hx
          obtain rfl : vid = vid' := by injection hv'
          obtain rfl : t = t' := by injection ht'
          have hx1 := List.take_subset 10 _ hx
          have hx2 := (List.mem_insertionSort distLe).mp hx1
          obtain ⟨p, hp, rfl⟩ := List.mem_map.mp hx2
          obtain ⟨_, hpred⟩ := List.mem_filter.mp hp
          rw [Bool.and_eq_true, beq_iff_eq, decide_eq_true_eq] at hpred
          exact ⟨hpred.1, hpred.2, rfl⟩

/-- Witness for C7 at a concrete store and request (with an oversized caller
`limit` of 1000, which the handler ignores): the single in-tolerance moment of
video `a` is returned with its time distance. -/
theorem segment_query_spec_witness :
    App.search_video_segment fixDb ⟨some "a", some 0, none, some 1000⟩
      = .ok [(fixM1, fixVa, 2)]
    ∧ ([(fixM1, fixVa, 2)] : List (MomentRow × VideoRow × ℚ)).length ≤ 10
    ∧ ∀ x ∈ ([(fixM1, fixVa, 2)] : List (MomentRow × VideoRow × ℚ)),
        x.1.video_id = "a" ∧ |x.1.timestamp_seconds - 0| ≤ 5 := by
  have h : App.search_video_segment fixDb ⟨some "a", some 0, none, some 1000⟩
      = .ok [(fixM1, fixVa, 2)] := by decide
  obtain ⟨h1, _, h3⟩ := segment_query_spec fixDb _ _ h
  exact ⟨h, h1, fun x hx =>
    ⟨(h3 "a" 0 rfl rfl x hx).1, (h3 "a" 0 rfl rfl x hx).2.1⟩⟩

/-- C8: evaluated at the failing input `a = [1]`, `b = [1, 2]` (and at the
empty pair): the §4.1 contract fails with `DimensionMismatch`, while the
source behaviour the spec reports in §9 silently computes over the
one-component overlap and returns full-similarity score data `(1, 1)` —
cosine 1.0 — instead of failing.  The general contract direction also holds:
mismatched or empty inputs always yield `DimensionMismatch`, never a score. -/
theorem cosineSimilarity_mismatch :
    cosineSimilarity [1] [1, 2] = .error .dimensionMismatch
    ∧ cosineSimilaritySrc [1] [1, 2] = (1, 1)
    ∧ cosineSimilarity [] [] = .error .dimensionMismatch
    ∧ ∀ a b : List ℚ, (a.length = 0 ∨ b.length = 0 ∨ a.length ≠ b.length) →
        cosineSimilarity a b = .error .dimensionMismatch := by
  refine ⟨by decide, by decide, by decide, ?_⟩
  intro a b hab
  unfold cosineSimilarity
  rw [if_pos hab]

/-- Witness for C8's universally quantified part at a concrete ragged pair. -/
theorem cosineSimilarity_mismatch_witness :
    cosineSimilarity [1, 2, 3] [1, 2] = .error .dimensionMismatch :=
  cosineSimilarity_mismatch.2.2.2 [1, 2, 3] [1, 2] (by decide)

/-- C10: `parse_json_field` is total and maps SQL NULL to `[]`, strings that
do not decode to `[]` (the bare `except` branch), strings that decode to
their decoded value, and any non-NULL non-string value to itself — so result
formatting never fails on malformed stored JSON. -/
theorem parse_json_field_spec (s : String) (j : JValue) :
    parse_json_field .null = .arr []
    ∧ (json_loads s = none → parse_json_field (.str s) = .arr [])
    ∧ (∀ v, json_loads s = some v → parse_json_field (.str s) = v)
    ∧ parse_json_field (.jval j) = j := by
  refine ⟨rfl, ?_, ?_, rfl⟩
  · intro h
    simp only [parse_json_field]
    rw [h]
  · intro v h
    simp only [parse_json_field]
    rw [h]

/-- Witness for C10: an undecodable string maps to `[]`; a decodable
stored-array string maps to its decoded value. -/
theorem parse_json_field_spec_witness :
    json_loads "oops" = none
    ∧ parse_json_field (.str "oops") = .arr []
    ∧ json_loads "[\"person\", \"car\"]" = some (.arr [.str "person", .str "car"])
    ∧ parse_json_field (.str "[\"person\", \"car\"]")
        = .arr [.str "person", .str "car"] := by
  have h1 : json_loads "oops" = none := by rfl
  have h2 : json_loads "[\"person\", \"car\"]"
      = some (.arr [.str "person", .str "car"]) := by rfl
  exact ⟨h1, (parse_json_field_spec "oops" (.arr [])).2.1 h1, h2,
    (parse_json_field_spec "[\"person\", \"car\"]" (.arr [])).2.2.1 _ h2⟩

end VBS
